import Mathlib

/-!
Verification of the paltax input pipeline (jaxstronomy/input_pipeline.py).

A shallow embedding of the stochastic scene-sampling and truth-extraction
pipeline.  Scalars are modelled as rationals (the code computes with finite
floats; all the properties verified here are exact arithmetic identities or
inequalities).  A jax PRNG key is modelled as an opaque natural-number token,
and the jax random primitives (`jax.random.split`, `jax.random.uniform`,
`jax.random.normal`) are modelled as an abstract structure of pure functions,
carrying only the guarantees jax documents: `split` is a pure function
returning exactly `n` child keys, and `uniform` returns a value in `[0, 1)`.
-/

namespace Paltax

/-- A jax PRNG key, an opaque deterministic token. -/
abbrev Key := ℕ

/-- The jax random primitives consumed by the pipeline, as pure functions.
`split k n` returns exactly `n` child keys; `uniform k` is in `[0, 1)`;
`normal k` is an arbitrary real draw (modelled as ℚ). -/
structure JaxRandom where
  split : Key → ℕ → List Key
  uniform : Key → ℚ
  normal : Key → ℚ
  split_length : ∀ k n, (split k n).length = n
  uniform_nonneg : ∀ k, 0 ≤ uniform k
  uniform_lt_one : ∀ k, uniform k < 1

/-- A concrete instance of the jax random primitives, used to evaluate the
pipeline on concrete inputs. -/
def jaxRandomModel : JaxRandom where
  split k n := (List.range n).map (fun i => 2 * k + i + 1)
  uniform _ := 0
  normal _ := 0
  split_length := by intro k n; simp
  uniform_nonneg := by intro k; norm_num
  uniform_lt_one := by intro k; norm_num

/-- The 7-slot distribution record
`[uniform_bool, uniform_min, uniform_max, normal_bool, normal_mean,
normal_std, constant]` (the layout documented in the source comments);
slot `i` of the jax array is the `i`-th field. -/
structure Encoding where
  uniform_bool : ℚ
  uniform_min : ℚ
  uniform_max : ℚ
  normal_bool : ℚ
  normal_mean : ℚ
  normal_std : ℚ
  constant : ℚ
deriving DecidableEq, Repr

/-- Embeds `encode_normal`: the record `[0, 0, 0, 1, mean, std, 0]`. -/
def encode_normal (mean std : ℚ) : Encoding :=
  ⟨0, 0, 0, 1, mean, std, 0⟩

/-- Embeds `encode_uniform`: the record `[1, minimum, maximum, 0, 0, 0, 0]`. -/
def encode_uniform (minimum maximum : ℚ) : Encoding :=
  ⟨1, minimum, maximum, 0, 0, 0, 0⟩

/-- Embeds `encode_constant`: the record `[0, 0, 0, 0, 0, 0, constant]`. -/
def encode_constant (constant : ℚ) : Encoding :=
  ⟨0, 0, 0, 0, 0, 0, constant⟩

/-- Embeds `decode_maximum`: `e[0]*e[2] + e[3]*(e[4] + e[5]*5) + e[6]`. -/
def decode_maximum (e : Encoding) : ℚ :=
  e.uniform_bool * e.uniform_max
    + e.normal_bool * (e.normal_mean + e.normal_std * 5)
    + e.constant

/-- Embeds `decode_minimum`: `e[0]*e[1] + e[3]*(e[4] - e[5]*5) + e[6]`. -/
def decode_minimum (e : Encoding) : ℚ :=
  e.uniform_bool * e.uniform_min
    + e.normal_bool * (e.normal_mean - e.normal_std * 5)
    + e.constant

/-- Embeds `draw_from_encoding`: the boolean-mask sum
`e[0]*(uniform(rng)*(e[2]-e[1]) + e[1]) + e[3]*(normal(rng)*e[5] + e[4]) + e[6]`
(the same key is passed to both random primitives, as in the source). -/
def draw_from_encoding (P : JaxRandom) (e : Encoding) (rng : Key) : ℚ :=
  e.uniform_bool * (P.uniform rng * (e.uniform_max - e.uniform_min)
      + e.uniform_min)
    + e.normal_bool * (P.normal rng * e.normal_std + e.normal_mean)
    + e.constant

/-- Embeds `normalize_param`: `select(e[0] > 0, (p - e[1])/(e[2] - e[1]), 0)
+ select(e[3] > 0, (p - e[4])/e[5], 0)`.  There is no guard against a
zero divisor; ℚ division by zero yields 0 where float arithmetic yields a
non-finite value. -/
def normalize_param (parameter : ℚ) (e : Encoding) : ℚ :=
  (if e.uniform_bool > 0
    then (parameter - e.uniform_min) / (e.uniform_max - e.uniform_min)
    else 0)
  + (if e.normal_bool > 0
    then (parameter - e.normal_mean) / e.normal_std
    else 0)

/-! ## PyTrees

A configuration is a jax pytree: a nested string-keyed mapping whose leaves
are distribution records (or, after sampling, scalars).  `jax.tree_util`
flattens such a tree into its list of leaves in a canonical deterministic
order; `tree_unflatten` rebuilds a tree of the same shape from a list of
leaves; `tree_map` is flatten, map over the leaf list, unflatten. -/
mutual

inductive Tree (α : Type) where
  | leaf (x : α)
  | node (children : TreeList α)

inductive TreeList (α : Type) where
  | nil
  | cons (key : String) (t : Tree α) (ts : TreeList α)

end

mutual

/-- Number of leaves of a pytree (`treedef.num_leaves`). -/
def Tree.numLeaves {α : Type} : Tree α → ℕ
  | .leaf _ => 1
  | .node cs => cs.numLeaves

def TreeList.numLeaves {α : Type} : TreeList α → ℕ
  | .nil => 0
  | .cons _ t ts => t.numLeaves + ts.numLeaves

end

mutual

/-- The leaves of a pytree, in canonical order (`jax.tree_util.tree_leaves`). -/
def Tree.leaves {α : Type} : Tree α → List α
  | .leaf x => [x]
  | .node cs => cs.leaves

def TreeList.leaves {α : Type} : TreeList α → List α
  | .nil => []
  | .cons _ t ts => t.leaves ++ ts.leaves

end

mutual

/-- Map a function over every leaf, keeping the structure
(`jax.tree_util.tree_map` with a single tree argument). -/
def Tree.map {α β : Type} (f : α → β) : Tree α → Tree β
  | .leaf x => .leaf (f x)
  | .node cs => .node (cs.map f)

def TreeList.map {α β : Type} (f : α → β) : TreeList α → TreeList β
  | .nil => .nil
  | .cons k t ts => .cons k (t.map f) (ts.map f)

end

/-- The treedef: the structure of a pytree with its leaf values forgotten. -/
def Tree.shape {α : Type} (t : Tree α) : Tree Unit := t.map (fun _ => ())

mutual

/-- Rebuild a tree with the structure of `t` from the list `xs` of leaf
values, consuming `xs` in canonical leaf order and returning the unconsumed
rest (`jax.tree_util.tree_unflatten`, with a default `d` where jax would
raise on a too-short list). -/
def Tree.unflattenAux {α β : Type} (d : β) : Tree α → List β → Tree β × List β
  | .leaf _, xs => (.leaf (xs.headD d), xs.tail)
  | .node cs, xs =>
      let r := TreeList.unflattenAux d cs xs
      (.node r.1, r.2)

def TreeList.unflattenAux {α β : Type} (d : β) :
    TreeList α → List β → TreeList β × List β
  | .nil, xs => (.nil, xs)
  | .cons k t ts, xs =>
      let r := Tree.unflattenAux d t xs
      let r2 := TreeList.unflattenAux d ts r.2
      (.cons k r.1 r2.1, r2.2)

end

/-- Embeds `jax.tree_util.tree_unflatten treedef xs`. -/
def tree_unflatten {α β : Type} (t : Tree α) (xs : List β) (d : β) : Tree β :=
  (Tree.unflattenAux d t xs).1

/-- Embeds `jax.tree_util.tree_map f t1 t2` for two trees of the same structure:
flatten both, zip the leaf lists with `f`, unflatten into the structure of
`t1` (this is how jax implements multi-tree `tree_map`). -/
def tree_map2 {α β γ : Type} (f : α → β → γ) (t1 : Tree α) (t2 : Tree β)
    (d : γ) : Tree γ :=
  tree_unflatten t1 (List.zipWith f t1.leaves t2.leaves) d

/-- Embeds `draw_sample`: split the key into `num_leaves` child keys, unflatten them
into a tree of keys aligned with the configuration, and map
`draw_from_encoding` over the two trees. -/
def draw_sample (P : JaxRandom) (t : Tree Encoding) (rng : Key) : Tree ℚ :=
  let rng_keys := P.split rng t.numLeaves
  let rng_tree := tree_unflatten t rng_keys 0
  tree_map2 (draw_from_encoding P) t rng_tree 0

/-! ## Multi-model batch sampling (`extract_multiple_models`)

`jax.vmap(draw_sample, in_axes=[None, 0])` applied to a batch of `n` keys
produces, for every leaf position, the length-`n` stack of the draws of the
`n` single calls; then `draws['model_index'] = jnp.arange(n_models)` adds one
further entry to the top-level mapping. -/
/-- Embeds `jnp.arange n` as a list of scalars. -/
def jnp_arange (n : ℕ) : List ℚ :=
  (List.range n).map (fun i => (i : ℚ))

/-- Stack a batch of same-shaped trees along a new leading axis (the output
of `jax.vmap`): leaf `j` of the result is the list collecting leaf `j` of
every input tree, in batch order. -/
def tree_stack {α : Type} (t : Tree α) (ds : List (Tree ℚ)) :
    Tree (List ℚ) :=
  tree_unflatten t
    ((List.range t.numLeaves).map
      (fun j => ds.map (fun d => d.leaves.getD j 0))) []

/-- Concatenation of two string-keyed child lists. -/
def TreeList.append {α : Type} : TreeList α → TreeList α → TreeList α
  | .nil, b => b
  | .cons k t ts, b => .cons k t (ts.append b)

/-- Embeds `draws['model_index'] = jnp.arange(n_models)`: add the `model_index`
entry to the top-level mapping (a python dict assignment; the tree produced
by `draw_sample` on a dict configuration is always a node). -/
def add_model_index (t : Tree (List ℚ)) (n : ℕ) : Tree (List ℚ) :=
  match t with
  | .node cs =>
      .node (cs.append (.cons "model_index" (.leaf (jnp_arange n)) .nil))
  | .leaf x => .leaf x

/-- Embeds `extract_multiple_models`: split the key into `n_models` child keys,
vmap `draw_sample` over them, and add the `model_index` field. -/
def extract_multiple_models (P : JaxRandom) (t : Tree Encoding) (rng : Key)
    (n_models : ℕ) : Tree (List ℚ) :=
  let rng_list := P.split rng n_models
  let draws := tree_stack t (rng_list.map (draw_sample P t))
  add_model_index draws n_models

/-- Embeds `jax.tree_util.tree_map(lambda x: x[i], tree)`: select model `i` from a
stacked multi-model tree. -/
def tree_model_slice (t : Tree (List ℚ)) (i : ℕ) : Tree ℚ :=
  t.map (fun xs => xs.getD i 0)

/-- Keys of a top-level child list. -/
def TreeList.keys {α : Type} : TreeList α → List String
  | .nil => []
  | .cons k _ ts => k :: ts.keys

/-- Look up a top-level field by key. -/
def TreeList.find? {α : Type} : TreeList α → String → Option (Tree α)
  | .nil, _ => none
  | .cons k t ts, key => if k = key then some t else ts.find? key

/-- Look up a top-level field of a tree by key. -/
def tree_get_field {α : Type} (t : Tree α) (key : String) :
    Option (Tree α) :=
  match t with
  | .node cs => cs.find? key
  | .leaf _ => none

/-- Remove every top-level entry with the given key. -/
def TreeList.eraseKey {α : Type} : TreeList α → String → TreeList α
  | .nil, _ => .nil
  | .cons k t ts, key =>
      if k = key then ts.eraseKey key else .cons k t (ts.eraseKey key)

/-- Remove a top-level field of a tree. -/
def tree_drop_field {α : Type} (t : Tree α) (key : String) : Tree α :=
  match t with
  | .node cs => .node (cs.eraseKey key)
  | .leaf x => .leaf x

/-! ## Truth extraction (`extract_truth_values`)

`all_params` and `lensing_config` are two-level string-keyed dictionaries
(pytree nodes); `truth_parameters` is the pair
`(extract_objects, extract_keys)`.  `jax.tree_util.tree_map` over the two
flat lists of strings pairs them elementwise. -/
/-- Python dictionary lookup `t[key]` on a pytree node (a missing key
raises in python; modelled with an empty-node default). -/
def dict_get {α : Type} (t : Tree α) (key : String) : Tree α :=
  (tree_get_field t key).getD (.node .nil)

/-- The scalar held by a leaf (a two-level dictionary access `t[x][y]`
ends on a leaf; modelled with a default on a non-leaf). -/
def tree_leaf_value {α : Type} (d : α) : Tree α → α
  | .leaf x => x
  | .node _ => d

/-- Embeds `all_params[x][y]`: the sampled scalar at path `(x, y)`. -/
def param_at (all_params : Tree ℚ) (x y : String) : ℚ :=
  tree_leaf_value 0 (dict_get (dict_get all_params x) y)

/-- Embeds `lensing_config[x][y]`: the distribution record at path `(x, y)`. -/
def encoding_at (lensing_config : Tree Encoding) (x y : String) : Encoding :=
  tree_leaf_value (encode_constant 0) (dict_get (dict_get lensing_config x) y)

/-- Embeds `extract_truth_values`: for each (object, key) pair of
`truth_parameters`, in order, `normalize_param(all_params[x][y],
lensing_config[x][y])`. -/
def extract_truth_values (all_params : Tree ℚ)
    (lensing_config : Tree Encoding)
    (truth_parameters : List String × List String) : List ℚ :=
  List.zipWith
    (fun x y => normalize_param (param_at all_params x y)
      (encoding_at lensing_config x y))
    truth_parameters.1 truth_parameters.2

/-! ## Cosmology initializer (`intialize_cosmology_params`)

`cosmology_utils` and `los` are external collaborator modules; their three
functions used here are modelled as opaque function parameters with
abstract result types.  The initializer itself (argument wiring, decoded
bounds, two-pass refinement) is embedded from the source. -/
/-- The configuration dictionary consumed by the initializer: the
`lensing_config` sub-dictionary (a two-level mapping to distribution
records) and the `cosmology_params` sub-tree. -/
structure InputConfig where
  lensing_config : String → String → Encoding
  cosmology_params : Tree Encoding

/-- The `extrenal_los_params` dictionary `{m_min, m_max, dz}` passed to the
line-of-sight lookup-table builder. -/
structure LosExtParams where
  m_min : ℚ
  m_max : ℚ
  dz : ℚ
deriving DecidableEq, Repr

/-- The external collaborator functions:
`cosmology_utils.add_lookup_tables_to_cosmology_params(init, z_max, dz,
r_min, r_max, n_r_bins)`, `cosmology_utils.lagrangian_radius(params, mass)`,
and `los.add_los_lookup_tables_to_cosmology_params(ext, params, z)`, with
abstract table types `C` and `R`. -/
structure CosmologyUtils (C R : Type) where
  add_lookup_tables_to_cosmology_params : Tree ℚ → ℚ → ℚ → ℚ → ℚ → ℕ → C
  lagrangian_radius : C → ℚ → ℚ
  add_los_lookup_tables_to_cosmology_params : LosExtParams → C → ℚ → R

/-- Embeds `intialize_cosmology_params` (the source spelling): decode the redshift
and halo-mass bounds from the declared distributions, draw the base
cosmology, build a coarse table (placeholder radius bounds `1e-4`..`1e3`,
2 points), query the Lagrangian radius at `m_min / 10` and `m_max * 10`,
rebuild the table over `[0, 1.5]` with the refined radius bounds and 10000
points, and merge in the line-of-sight tables. -/
def intialize_cosmology_params {C R : Type} (U : CosmologyUtils C R)
    (P : JaxRandom) (config : InputConfig) (rng : Key) : R :=
  let max_source_z :=
    decode_maximum (config.lensing_config "source_params" "z_source")
  let dz := decode_minimum (config.lensing_config "los_params" "dz")
  let m_max :=
    max (decode_maximum (config.lensing_config "subhalo_params" "m_max"))
      (decode_maximum (config.lensing_config "los_params" "m_max"))
  let m_min :=
    min (decode_minimum (config.lensing_config "subhalo_params" "m_min"))
      (decode_minimum (config.lensing_config "los_params" "m_min"))
  let cosmology_params_init := draw_sample P config.cosmology_params rng
  let cosmology_params := U.add_lookup_tables_to_cosmology_params
    cosmology_params_init max_source_z (dz / 2) (1/10000) 1000 2
  let r_min := U.lagrangian_radius cosmology_params (m_min / 10)
  let r_max := U.lagrangian_radius cosmology_params (m_max * 10)
  let cosmology_params2 := U.add_lookup_tables_to_cosmology_params
    cosmology_params_init (3/2) (dz / 2) r_min r_max 10000
  U.add_los_lookup_tables_to_cosmology_params
    ⟨m_min, m_max, dz⟩ cosmology_params2 max_source_z

/-- An admissible collaborator instance that records the arguments each
lookup table was built from: a table is the tuple
`(z_max, step, r_min, r_max, n_points)` of its build arguments, and the
Lagrangian-radius estimator is the given function of the coarse table and
the queried mass. -/
def tableRecorder (lagr : ℚ × ℚ × ℚ × ℚ × ℕ → ℚ → ℚ) :
    CosmologyUtils (ℚ × ℚ × ℚ × ℚ × ℕ) (ℚ × ℚ × ℚ × ℚ × ℕ) where
  add_lookup_tables_to_cosmology_params :=
    fun _ z step rmin rmax n => (z, step, rmin, rmax, n)
  lagrangian_radius := lagr
  add_los_lookup_tables_to_cosmology_params := fun _ c _ => c

/-- A concrete configuration: declared halo-mass range `[1e7, 1e10]` for
both the subhalo and line-of-sight populations, declared line-of-sight
redshift step `0.01`, source redshift 2. -/
def cfgExample : InputConfig where
  lensing_config := fun _ f =>
    if f = "m_min" then encode_constant 10000000
    else if f = "m_max" then encode_constant 10000000000
    else if f = "dz" then encode_constant (1/100)
    else encode_constant 2
  cosmology_params := .leaf (encode_constant 1)

/-! ## Scene assembler (`draw_image_and_truth`)

The external collaborators (`los.draw_los`, `subhalos.draw_subhalos`,
`image_simulation.generate_image`, `utils.downsample`) are modelled as
opaque function parameters over abstract types; a downsampled image is a
flat list of pixel values.  `jnp.std` is `sqrt(mean((x - mean x)^2))`; the
square root is modelled as an opaque primitive constrained only by
`sqrt 0 = 0` (exactly true in float arithmetic as well). -/
/-- Embeds `jnp.mean` of a pixel list. -/
def jnp_mean (l : List ℚ) : ℚ :=
  l.sum / l.length

/-- The variance `mean((x - mean x)^2)` under `jnp.std` (ddof = 0). -/
def jnp_var (l : List ℚ) : ℚ :=
  (l.map (fun x => (x - jnp_mean l) ^ 2)).sum / l.length

/-- The numerical square root used by `jnp.std`, as an opaque primitive:
any function with `sqrt 0 = 0`. -/
structure JnpSqrt where
  sqrt : ℚ → ℚ
  sqrt_zero : sqrt 0 = 0

/-- A concrete admissible square-root model. -/
def jnpSqrtModel : JnpSqrt where
  sqrt _ := 0
  sqrt_zero := rfl

/-- Embeds `jnp.std l = sqrt (mean ((x - mean l)^2))`. -/
def jnp_std (S : JnpSqrt) (l : List ℚ) : ℚ :=
  S.sqrt (jnp_var l)

/-- Embeds `image /= jnp.std(image)` (source line 397): every pixel is divided by
the image's own empirical standard deviation, unconditionally. -/
def rescale_to_unit_std (S : JnpSqrt) (image : List ℚ) : List ℚ :=
  image.map (fun p => p / jnp_std S image)

/-- The `all_models` catalog dictionary: the candidate model classes for
each component (`draw_image_and_truth` reads only
`all_main_deflector_models` and `all_source_models`). -/
structure AllModels (M : Type) where
  all_main_deflector_models : List M
  all_source_models : List M
  all_lens_light_models : List M

/-- Embeds `kwargs_simulation`: the substructure-draw sizing parameters. -/
structure KwargsSimulation where
  num_z_bins : ℕ
  los_pad_length : ℕ
  subhalos_pad_length : ℕ
  sampling_pad_length : ℕ

/-- Embeds `kwargs_detector`: the supersampling factor consumed by the
downsampling step, plus the remaining detector configuration (opaque). -/
structure KwargsDetector (D : Type) where
  supersampling_factor : ℕ
  other : D

/-- The `kwargs_lens_all` dictionary assembled for the renderer. -/
structure KwargsLensAll (ZA KW SZ SK : Type) where
  z_array_los_before : ZA
  kwargs_los_before : KW
  z_array_los_after : ZA
  kwargs_los_after : KW
  kwargs_main_deflector : Tree (List ℚ)
  z_array_main_deflector : Tree (List ℚ)
  z_array_subhalos : SZ
  kwargs_subhalos : SK

/-- The external collaborators of the scene assembler. -/
structure SceneCollaborators (G Cos PSF D M Img ZA KW SZ SK : Type) where
  draw_los : Tree ℚ → Tree ℚ → Tree ℚ → Cos → Key → ℕ → ℕ →
    (ZA × KW) × (ZA × KW)
  draw_subhalos : Tree ℚ → Tree ℚ → Tree ℚ → Cos → Key → ℕ → ℕ → SZ × SK
  generate_image : G → G → KwargsLensAll ZA KW SZ SK → Tree (List ℚ) →
    Tree (List ℚ) → PSF → Cos → ℚ → KwargsDetector D → AllModels M → Img
  downsample : Img → ℕ → List ℚ

/-- Embeds `draw_image_and_truth`: split the key six ways; draw multi-model
parameter sets for the main deflector (one per main-deflector model) and
for the source and lens light (one per SOURCE model each); draw single
parameter sets for the line-of-sight and subhalo globals; select the
principal models (`principal_md_index` for the deflector,
`principal_source_index` for both the source and the lens light);
repackage, delegate the population draws and the rendering, downsample,
divide by the empirical standard deviation, and extract the normalized
truth values. -/
def draw_image_and_truth {G Cos PSF D M Img ZA KW SZ SK : Type}
    (E : SceneCollaborators G Cos PSF D M Img ZA KW SZ SK) (S : JnpSqrt)
    (P : JaxRandom) (lensing_config : Tree Encoding)
    (cosmology_params : Cos) (grid_x grid_y : G) (rng : Key)
    (all_models : AllModels M)
    (principal_md_index principal_source_index : ℕ)
    (kwargs_simulation : KwargsSimulation)
    (kwargs_detector : KwargsDetector D) (kwargs_psf : PSF)
    (truth_parameters : List String × List String) :
    List ℚ × List ℚ :=
  let num_z_bins := kwargs_simulation.num_z_bins
  let los_pad_length := kwargs_simulation.los_pad_length
  let subhalos_pad_length := kwargs_simulation.subhalos_pad_length
  let sampling_pad_length := kwargs_simulation.sampling_pad_length
  let ks := P.split rng 6
  let rng_md := ks.getD 0 0
  let rng_source := ks.getD 1 0
  let rng_ll := ks.getD 2 0
  let rng_los := ks.getD 3 0
  let rng_sub := ks.getD 4 0
  let rng2 := ks.getD 5 0
  let main_deflector_params := extract_multiple_models P
    (dict_get lensing_config "main_deflector_params") rng_md
    all_models.all_main_deflector_models.length
  let source_params := extract_multiple_models P
    (dict_get lensing_config "source_params") rng_source
    all_models.all_source_models.length
  let lens_light_params := extract_multiple_models P
    (dict_get lensing_config "lens_light_params") rng_ll
    all_models.all_source_models.length
  let los_params := draw_sample P (dict_get lensing_config "los_params")
    rng_los
  let subhalo_params := draw_sample P
    (dict_get lensing_config "subhalo_params") rng_sub
  let main_deflector_params_sub :=
    tree_model_slice main_deflector_params principal_md_index
  let source_params_sub :=
    tree_model_slice source_params principal_source_index
  let lens_light_params_sub :=
    tree_model_slice lens_light_params principal_source_index
  let all_params : Tree ℚ := .node
    (.cons "source_params" source_params_sub
      (.cons "lens_light_params" lens_light_params_sub
        (.cons "los_params" los_params
          (.cons "subhalo_params" subhalo_params
            (.cons "main_deflector_params" main_deflector_params_sub
              .nil)))))
  let ks2 := P.split rng2 2
  let rng_los2 := ks2.getD 0 0
  let rng_sub2 := ks2.getD 1 0
  let los_tuples := E.draw_los main_deflector_params_sub source_params_sub
    los_params cosmology_params rng_los2 num_z_bins los_pad_length
  let sub_tuple := E.draw_subhalos main_deflector_params_sub
    source_params_sub subhalo_params cosmology_params rng_sub2
    subhalos_pad_length sampling_pad_length
  let kwargs_lens_all : KwargsLensAll ZA KW SZ SK :=
    ⟨los_tuples.1.1, los_tuples.1.2, los_tuples.2.1, los_tuples.2.2,
      main_deflector_params, dict_get main_deflector_params "z_lens",
      sub_tuple.1, sub_tuple.2⟩
  let z_source := tree_leaf_value 0 (dict_get source_params_sub "z_source")
  let image_supersampled := E.generate_image grid_x grid_y kwargs_lens_all
    source_params lens_light_params kwargs_psf cosmology_params z_source
    kwargs_detector all_models
  let image := E.downsample image_supersampled
    kwargs_detector.supersampling_factor
  let image2 := rescale_to_unit_std S image
  let truth := extract_truth_values all_params lensing_config
    truth_parameters
  (image2, truth)

/-- Collaborators whose rendering pipeline produces a uniformly constant
downsampled image (all abstract types instantiated trivially). -/
def constImageCollaborators :
    SceneCollaborators Unit Unit Unit Unit Unit Unit Unit Unit Unit Unit
    where
  draw_los := fun _ _ _ _ _ _ _ => (((), ()), ((), ()))
  draw_subhalos := fun _ _ _ _ _ _ _ => ((), ())
  generate_image := fun _ _ _ _ _ _ _ _ _ _ => ()
  downsample := fun _ _ => List.replicate 4 3

/-- C3: decode_maximum / decode_minimum on the three constructors. -/
theorem decode_extrema_spec :
    (∀ mn mx : ℚ, decode_maximum (encode_uniform mn mx) = mx
      ∧ decode_minimum (encode_uniform mn mx) = mn)
    ∧ (∀ mean std : ℚ,
        decode_maximum (encode_normal mean std) = mean + 5 * std
      ∧ decode_minimum (encode_normal mean std) = mean - 5 * std)
    ∧ (∀ c : ℚ, decode_maximum (encode_constant c) = c
      ∧ decode_minimum (encode_constant c) = c)
    ∧ decode_maximum (encode_normal 1 (2/10)) = 2
    ∧ decode_minimum (encode_normal 1 (2/10)) = 0 := by
  refine ⟨?_, ?_, ?_, ?_, ?_⟩
  · intro mn mx
    constructor <;>
      simp [decode_maximum, decode_minimum, encode_uniform]
  · intro mean std
    constructor <;>
    · simp only [decode_maximum, decode_minimum, encode_normal]
      ring
  · intro c
    constructor <;>
      simp [decode_maximum, decode_minimum, encode_constant]
  · norm_num [decode_maximum, encode_normal]
  · norm_num [decode_minimum, encode_normal]

/-- C4: for a well-formed uniform record (uniform flag 1, normal flag 0,
constant slot 0, `uniform_min ≤ uniform_max`) and for a constant record
(both flags 0), the drawn value lies between `decode_minimum` and
`decode_maximum`, for every random primitive model and key. -/
theorem draw_within_decoded_bounds (P : JaxRandom) (e : Encoding) (s : Key)
    (h : (e.uniform_bool = 1 ∧ e.normal_bool = 0 ∧ e.constant = 0
            ∧ e.uniform_min ≤ e.uniform_max)
        ∨ (e.uniform_bool = 0 ∧ e.normal_bool = 0)) :
    decode_minimum e ≤ draw_from_encoding P e s
      ∧ draw_from_encoding P e s ≤ decode_maximum e := by
  have hu0 := P.uniform_nonneg s
  have hu1 := P.uniform_lt_one s
  rcases h with ⟨h1, h3, h6, hle⟩ | ⟨h1, h3⟩
  · have hd : 0 ≤ e.uniform_max - e.uniform_min := by linarith
    constructor
    · simp only [decode_minimum, draw_from_encoding, h1, h3, h6]
      nlinarith [mul_nonneg hu0 hd]
    · simp only [decode_maximum, draw_from_encoding, h1, h3, h6]
      nlinarith [mul_le_of_le_one_left hd (le_of_lt hu1)]
  · constructor
    · simp [decode_minimum, draw_from_encoding, h1, h3]
    · simp [decode_maximum, draw_from_encoding, h1, h3]

/-- Witness for C4: the uniform record `encode_uniform 0 1` and the constant
record `encode_constant 3`, evaluated with the concrete random model. -/
theorem draw_within_decoded_bounds_witness :
    (decode_minimum (encode_uniform 0 1)
        ≤ draw_from_encoding jaxRandomModel (encode_uniform 0 1) 5
      ∧ draw_from_encoding jaxRandomModel (encode_uniform 0 1) 5
        ≤ decode_maximum (encode_uniform 0 1))
    ∧ (decode_minimum (encode_constant 3)
        ≤ draw_from_encoding jaxRandomModel (encode_constant 3) 7
      ∧ draw_from_encoding jaxRandomModel (encode_constant 3) 7
        ≤ decode_maximum (encode_constant 3)) :=
  ⟨draw_within_decoded_bounds jaxRandomModel (encode_uniform 0 1) 5
      (Or.inl (by refine ⟨rfl, rfl, rfl, ?_⟩; norm_num [encode_uniform])),
    draw_within_decoded_bounds jaxRandomModel (encode_constant 3) 7
      (Or.inr ⟨rfl, rfl⟩)⟩

/-- C6: there is no fail-fast guard in `normalize_param`.  On a zero-width
uniform record the code unconditionally computes the division
`(parameter - min) / (max - min)` with divisor `max - min = 0` (a non-finite
float in the real code; division by zero in this embedding), and likewise
divides by `std = 0` on a degenerate normal record — the value is returned
silently rather than an error being raised. -/
theorem normalize_param_no_zero_guard :
    ((encode_uniform 1 1).uniform_max - (encode_uniform 1 1).uniform_min = 0
      ∧ normalize_param (1/2) (encode_uniform 1 1)
          = ((1:ℚ)/2 - 1) / ((1:ℚ) - 1))
    ∧ ((encode_normal 1 0).normal_std = 0
      ∧ normalize_param (1/2) (encode_normal 1 0)
          = ((1:ℚ)/2 - 1) / (0:ℚ)) := by
  refine ⟨⟨?_, ?_⟩, ⟨?_, ?_⟩⟩ <;>
    norm_num [normalize_param, encode_uniform, encode_normal]

/-! ### Basic pytree lemmas -/
mutual

theorem Tree.leaves_length {α : Type} :
    ∀ t : Tree α, t.leaves.length = t.numLeaves
  | .leaf _ => rfl
  | .node cs => TreeList.leaves_length_list cs

theorem TreeList.leaves_length_list {α : Type} :
    ∀ ts : TreeList α, ts.leaves.length = ts.numLeaves
  | .nil => rfl
  | .cons _ t ts => by
      simp [TreeList.leaves, TreeList.numLeaves, Tree.leaves_length t,
        TreeList.leaves_length_list ts]

end

mutual

theorem Tree.map_map {α β γ : Type} (f : α → β) (g : β → γ) :
    ∀ t : Tree α, (t.map f).map g = t.map (fun x => g (f x))
  | .leaf _ => rfl
  | .node cs => by simp [Tree.map, TreeList.map_map_list f g cs]

theorem TreeList.map_map_list {α β γ : Type} (f : α → β) (g : β → γ) :
    ∀ ts : TreeList α, (ts.map f).map g = ts.map (fun x => g (f x))
  | .nil => rfl
  | .cons _ t ts => by
      simp [TreeList.map, Tree.map_map f g t, TreeList.map_map_list f g ts]

end

mutual

theorem Tree.map_leaves {α β : Type} (f : α → β) :
    ∀ t : Tree α, (t.map f).leaves = t.leaves.map f
  | .leaf _ => rfl
  | .node cs => TreeList.map_leaves_list f cs

theorem TreeList.map_leaves_list {α β : Type} (f : α → β) :
    ∀ ts : TreeList α, (ts.map f).leaves = ts.leaves.map f
  | .nil => rfl
  | .cons _ t ts => by
      simp [TreeList.map, TreeList.leaves, Tree.map_leaves f t,
        TreeList.map_leaves_list f ts]

end

theorem Tree.map_shape {α β : Type} (f : α → β) (t : Tree α) :
    (t.map f).shape = t.shape := by
  simp [Tree.shape, Tree.map_map]

theorem Tree.map_numLeaves {α β : Type} (f : α → β) (t : Tree α) :
    (t.map f).numLeaves = t.numLeaves := by
  rw [← Tree.leaves_length, ← Tree.leaves_length, Tree.map_leaves,
    List.length_map]

mutual

theorem Tree.unflattenAux_snd {α β : Type} (d : β) :
    ∀ (t : Tree α) (xs : List β),
      (Tree.unflattenAux d t xs).2 = xs.drop t.numLeaves
  | .leaf _, xs => by simp [Tree.unflattenAux, Tree.numLeaves]
  | .node cs, xs => by
      simp [Tree.unflattenAux, Tree.numLeaves,
        TreeList.unflattenAux_snd_list d cs xs]

theorem TreeList.unflattenAux_snd_list {α β : Type} (d : β) :
    ∀ (ts : TreeList α) (xs : List β),
      (TreeList.unflattenAux d ts xs).2 = xs.drop ts.numLeaves
  | .nil, xs => by simp [TreeList.unflattenAux, TreeList.numLeaves]
  | .cons _ t ts, xs => by
      simp [TreeList.unflattenAux, TreeList.numLeaves,
        Tree.unflattenAux_snd d t xs, TreeList.unflattenAux_snd_list d ts,
        List.drop_drop, Nat.add_comm]

end

mutual

theorem Tree.unflattenAux_leaves {α β : Type} (d : β) :
    ∀ (t : Tree α) (xs : List β), t.numLeaves ≤ xs.length →
      (Tree.unflattenAux d t xs).1.leaves = xs.take t.numLeaves
  | .leaf _, xs, h => by
      cases xs with
      | nil => simp [Tree.numLeaves] at h
      | cons a l =>
          simp [Tree.unflattenAux, Tree.numLeaves, Tree.leaves]
  | .node cs, xs, h => TreeList.unflattenAux_leaves_list d cs xs h

theorem TreeList.unflattenAux_leaves_list {α β : Type} (d : β) :
    ∀ (ts : TreeList α) (xs : List β), ts.numLeaves ≤ xs.length →
      (TreeList.unflattenAux d ts xs).1.leaves = xs.take ts.numLeaves
  | .nil, xs, _ => by simp [TreeList.unflattenAux, TreeList.numLeaves,
      TreeList.leaves]
  | .cons k t ts, xs, h => by
      have hn : TreeList.numLeaves (.cons k t ts) =
          t.numLeaves + ts.numLeaves := rfl
      have h1 : t.numLeaves ≤ xs.length := by
        rw [hn] at h; omega
      have h2 : ts.numLeaves ≤ (xs.drop t.numLeaves).length := by
        rw [List.length_drop]; rw [hn] at h; omega
      simp only [TreeList.unflattenAux, TreeList.leaves,
        Tree.unflattenAux_leaves d t xs h1, Tree.unflattenAux_snd,
        TreeList.unflattenAux_leaves_list d ts _ h2, hn]
      rw [List.take_add, List.take_drop]

end

mutual

theorem Tree.unflattenAux_shape {α β : Type} (d : β) :
    ∀ (t : Tree α) (xs : List β),
      (Tree.unflattenAux d t xs).1.shape = t.shape
  | .leaf _, xs => rfl
  | .node cs, xs => by
      simp only [Tree.unflattenAux, Tree.shape, Tree.map]
      exact congrArg Tree.node (TreeList.unflattenAux_shape_list d cs xs)

theorem TreeList.unflattenAux_shape_list {α β : Type} (d : β) :
    ∀ (ts : TreeList α) (xs : List β),
      TreeList.map (fun _ => ()) (TreeList.unflattenAux d ts xs).1
        = TreeList.map (fun _ => ()) ts
  | .nil, _ => rfl
  | .cons k t ts, xs => by
      simp only [TreeList.unflattenAux, TreeList.map,
        TreeList.unflattenAux_shape_list d ts]
      have := Tree.unflattenAux_shape d t xs
      simp only [Tree.shape] at this
      rw [this]

end

mutual

theorem Tree.map_unflattenAux {α β γ : Type} (d : β) (g : β → γ) :
    ∀ (t : Tree α) (xs : List β),
      Tree.unflattenAux (g d) t (xs.map g)
        = ((Tree.unflattenAux d t xs).1.map g,
            (Tree.unflattenAux d t xs).2.map g)
  | .leaf _, xs => by
      cases xs <;> simp [Tree.unflattenAux, Tree.map]
  | .node cs, xs => by
      simp only [Tree.unflattenAux, TreeList.map_unflattenAux_list d g cs xs,
        Tree.map]

theorem TreeList.map_unflattenAux_list {α β γ : Type} (d : β) (g : β → γ) :
    ∀ (ts : TreeList α) (xs : List β),
      TreeList.unflattenAux (g d) ts (xs.map g)
        = ((TreeList.unflattenAux d ts xs).1.map g,
            (TreeList.unflattenAux d ts xs).2.map g)
  | .nil, xs => by simp [TreeList.unflattenAux, TreeList.map]
  | .cons k t ts, xs => by
      simp only [TreeList.unflattenAux, Tree.map_unflattenAux d g t xs,
        TreeList.map_unflattenAux_list d g ts, TreeList.map]

end

mutual

theorem Tree.ext_shape_leaves {α : Type} :
    ∀ t1 t2 : Tree α, t1.shape = t2.shape → t1.leaves = t2.leaves →
      t1 = t2
  | .leaf _, .leaf _, _, hl => by
      simp only [Tree.leaves, List.cons.injEq] at hl
      rw [hl.1]
  | .leaf _, .node _, hs, _ => by
      simp [Tree.shape, Tree.map] at hs
  | .node _, .leaf _, hs, _ => by
      simp [Tree.shape, Tree.map] at hs
  | .node cs1, .node cs2, hs, hl => by
      simp only [Tree.shape, Tree.map, Tree.node.injEq] at hs
      exact congrArg Tree.node (TreeList.ext_shape_leaves_list cs1 cs2 hs hl)

theorem TreeList.ext_shape_leaves_list {α : Type} :
    ∀ ts1 ts2 : TreeList α,
      TreeList.map (fun _ => ()) ts1 = TreeList.map (fun _ => ()) ts2 →
      ts1.leaves = ts2.leaves → ts1 = ts2
  | .nil, .nil, _, _ => rfl
  | .nil, .cons _ _ _, hs, _ => by simp [TreeList.map] at hs
  | .cons _ _ _, .nil, hs, _ => by simp [TreeList.map] at hs
  | .cons k1 t1 ts1, .cons k2 t2 ts2, hs, hl => by
      simp only [TreeList.map, TreeList.cons.injEq] at hs
      obtain ⟨hk, hsh, hss⟩ := hs
      subst hk
      have hsh2 : t1.shape = t2.shape := hsh
      have hlen : t1.leaves.length = t2.leaves.length := by
        rw [Tree.leaves_length, Tree.leaves_length,
          ← Tree.map_numLeaves (fun _ => ()) t1,
          ← Tree.map_numLeaves (fun _ => ()) t2]
        exact congrArg Tree.numLeaves hsh
      simp only [TreeList.leaves] at hl
      obtain ⟨hl1, hl2⟩ := List.append_inj hl hlen
      rw [Tree.ext_shape_leaves t1 t2 hsh2 hl1,
        TreeList.ext_shape_leaves_list ts1 ts2 hss hl2]

end

/-- The leaves of the sampled tree: each leaf of the configuration is paired,
in canonical leaf order, with the corresponding child key of
`split rng num_leaves`, and `draw_from_encoding` is applied to the pair. -/
theorem draw_sample_leaves (P : JaxRandom) (t : Tree Encoding) (s : Key) :
    (draw_sample P t s).leaves
      = List.zipWith (draw_from_encoding P) t.leaves
          (P.split s t.numLeaves) := by
  have hk : (P.split s t.numLeaves).length = t.numLeaves :=
    P.split_length s t.numLeaves
  have hrt : (tree_unflatten t (P.split s t.numLeaves) 0).leaves
      = P.split s t.numLeaves := by
    rw [tree_unflatten, Tree.unflattenAux_leaves 0 t _ (le_of_eq hk.symm)]
    exact List.take_of_length_le (le_of_eq hk)
  have hz : (List.zipWith (draw_from_encoding P) t.leaves
      (P.split s t.numLeaves)).length = t.numLeaves := by
    rw [List.length_zipWith, hk, Tree.leaves_length, min_self]
  simp only [draw_sample, tree_map2]
  rw [hrt, tree_unflatten,
    Tree.unflattenAux_leaves _ t _ (le_of_eq hz.symm)]
  exact List.take_of_length_le (le_of_eq hz)

/-- C1: `draw_sample` returns a tree of the same shape as the configuration,
whose leaves are `draw_from_encoding` applied, in canonical leaf order, to
each (leaf, child key) pair where the child keys are obtained by splitting
the key into exactly `num_leaves` children; and two calls with the same
(tree, key) pair yield identical output. -/
theorem draw_sample_spec (P : JaxRandom) (t : Tree Encoding) (s : Key) :
    (draw_sample P t s).shape = t.shape
    ∧ (P.split s t.numLeaves).length = t.numLeaves
    ∧ (draw_sample P t s).leaves
        = List.zipWith (draw_from_encoding P) t.leaves
            (P.split s t.numLeaves)
    ∧ draw_sample P t s = draw_sample P t s := by
  refine ⟨?_, P.split_length s t.numLeaves, draw_sample_leaves P t s, rfl⟩
  simp only [draw_sample, tree_map2, tree_unflatten]
  exact Tree.unflattenAux_shape _ t _

/-- The shape-preservation part of C1, separated for reuse. -/
theorem draw_sample_shape (P : JaxRandom) (t : Tree Encoding) (s : Key) :
    (draw_sample P t s).shape = t.shape := by
  simp only [draw_sample, tree_map2, tree_unflatten]
  exact Tree.unflattenAux_shape _ t _

/-! ### Lemmas about the batch-sampling machinery -/
theorem List.getD_map_of_lt {α β : Type} (l : List α) (f : α → β) (i : ℕ)
    (d : α) (d2 : β) (h : i < l.length) :
    (l.map f).getD i d2 = f (l.getD i d) := by
  rw [List.getD_eq_getElem?_getD, List.getD_eq_getElem?_getD,
    List.getElem?_map, List.getElem?_eq_getElem h]
  simp

theorem List.range_map_getD {α : Type} (l : List α) (d : α) :
    (List.range l.length).map (fun j => l.getD j d) = l := by
  apply List.ext_getElem
  · simp
  · intro i h1 h2
    simp only [List.getElem_map, List.getElem_range]
    rw [List.getD_eq_getElem?_getD, List.getElem?_eq_getElem h2]
    simp

theorem TreeList.map_append {α β : Type} (f : α → β) :
    ∀ a b : TreeList α,
      (a.append b).map f = (a.map f).append (b.map f)
  | .nil, _ => rfl
  | .cons k t ts, b => by
      simp [TreeList.append, TreeList.map, TreeList.map_append f ts b]

theorem TreeList.map_keys {α β : Type} (f : α → β) :
    ∀ a : TreeList α, (a.map f).keys = a.keys
  | .nil => rfl
  | .cons k t ts => by
      simp [TreeList.map, TreeList.keys, TreeList.map_keys f ts]

theorem TreeList.keys_eq_of_map_eq {α β : Type} (f : α → β)
    (a b : TreeList α) (h : a.map f = b.map f) : a.keys = b.keys := by
  rw [← TreeList.map_keys f a, ← TreeList.map_keys f b, h]

theorem TreeList.eraseKey_append {α : Type} (key : String) :
    ∀ a b : TreeList α,
      (a.append b).eraseKey key = (a.eraseKey key).append (b.eraseKey key)
  | .nil, _ => rfl
  | .cons k t ts, b => by
      by_cases hk : k = key <;>
        simp [TreeList.append, TreeList.eraseKey, hk,
          TreeList.eraseKey_append key ts b]

theorem TreeList.eraseKey_of_not_mem {α : Type} (key : String) :
    ∀ a : TreeList α, key ∉ a.keys → a.eraseKey key = a
  | .nil, _ => rfl
  | .cons k t ts, h => by
      simp only [TreeList.keys, List.mem_cons, not_or] at h
      have hk : ¬ k = key := fun hk => h.1 hk.symm
      simp [TreeList.eraseKey, hk,
        TreeList.eraseKey_of_not_mem key ts h.2]

theorem TreeList.append_nil {α : Type} :
    ∀ a : TreeList α, a.append .nil = a
  | .nil => rfl
  | .cons k t ts => by
      simp [TreeList.append, TreeList.append_nil ts]

theorem TreeList.find?_append {α : Type} (key : String) :
    ∀ a b : TreeList α, key ∉ a.keys →
      (a.append b).find? key = b.find? key
  | .nil, _, _ => rfl
  | .cons k t ts, b, h => by
      simp only [TreeList.keys, List.mem_cons, not_or] at h
      have hk : ¬ k = key := fun hk => h.1 hk.symm
      simp [TreeList.append, TreeList.find?, hk,
        TreeList.find?_append key ts b h.2]

/-- Selecting batch element `i` from a stack of same-shaped trees recovers
the `i`-th tree. -/
theorem tree_model_slice_stack {α : Type} (t : Tree α) (ds : List (Tree ℚ))
    (i : ℕ) (hi : i < ds.length)
    (hsh : ∀ d ∈ ds, d.shape = t.shape) :
    tree_model_slice (tree_stack t ds) i = ds.getD i (.leaf 0) := by
  set di := ds.getD i (.leaf 0) with hdi
  have hmem : di ∈ ds := by
    rw [hdi, List.getD_eq_getElem?_getD, List.getElem?_eq_getElem hi]
    exact List.getElem_mem hi
  have hdsh : di.shape = t.shape := hsh di hmem
  have hnum : di.numLeaves = t.numLeaves := by
    rw [← Tree.map_numLeaves (fun _ => ()) di,
      ← Tree.map_numLeaves (fun _ => ()) t]
    exact congrArg Tree.numLeaves hdsh
  have hlen : di.leaves.length = t.numLeaves := by
    rw [Tree.leaves_length, hnum]
  -- push the slicing map through the unflatten
  rw [tree_model_slice, tree_stack, tree_unflatten]
  have hmu := Tree.map_unflattenAux (α := α) ([] : List ℚ)
    (fun xs => xs.getD i 0) t
    ((List.range t.numLeaves).map
      (fun j => ds.map (fun d => d.leaves.getD j 0)))
  have hmu1 := congrArg Prod.fst hmu.symm
  simp only at hmu1
  rw [hmu1]
  -- the mapped leaf list is exactly the leaves of `di`
  have hL : ((List.range t.numLeaves).map
        (fun j => ds.map (fun d => d.leaves.getD j 0))).map
          (fun xs => xs.getD i 0)
      = (List.range t.numLeaves).map (fun j => di.leaves.getD j 0) := by
    rw [List.map_map]
    apply List.map_congr_left
    intro j _
    simp only [Function.comp]
    exact List.getD_map_of_lt ds _ i (.leaf 0) 0 hi
  have hrange : (List.range t.numLeaves).map (fun j => di.leaves.getD j 0)
      = di.leaves := by
    rw [← hlen]
    exact List.range_map_getD di.leaves 0
  rw [hL, hrange]
  -- a tree with the shape of `t` and the leaves of `di` is `di`
  have hd0 : (([] : List ℚ).getD i 0) = 0 := by simp
  rw [hd0]
  apply Tree.ext_shape_leaves
  · rw [Tree.unflattenAux_shape, hdsh]
  · rw [Tree.unflattenAux_leaves _ t _ (le_of_eq hlen.symm), ← hlen,
      List.take_length]

/-- C2: for every configuration node, key and model count `n`, model `i` of
`extract_multiple_models` (selected by `tree_map(lambda x: x[i], ·)`, with
the added `model_index` entry removed) is exactly the single call
`draw_sample(tree, split(rng, n)[i])`, and the `model_index` field of the
result holds `jnp.arange n = [0, 1, ..., n-1]`. -/
theorem extract_multiple_models_spec (P : JaxRandom)
    (cs : TreeList Encoding) (rng : Key) (n i : ℕ) (hi : i < n)
    (hmi : "model_index" ∉ cs.keys) :
    tree_drop_field
        (tree_model_slice (extract_multiple_models P (.node cs) rng n) i)
        "model_index"
      = draw_sample P (.node cs) ((P.split rng n).getD i 0)
    ∧ tree_get_field (extract_multiple_models P (.node cs) rng n)
        "model_index"
      = some (.leaf (jnp_arange n)) := by
  have hkl : (P.split rng n).length = n := P.split_length rng n
  have hdl : ((P.split rng n).map (draw_sample P (.node cs))).length
      = n := by rw [List.length_map, hkl]
  have hshape : (tree_stack (.node cs)
        ((P.split rng n).map (draw_sample P (.node cs)))).shape
      = (Tree.node cs).shape := by
    rw [tree_stack, tree_unflatten]
    exact Tree.unflattenAux_shape _ _ _
  obtain ⟨cs', hcs'⟩ : ∃ cs',
      tree_stack (.node cs)
        ((P.split rng n).map (draw_sample P (.node cs))) = .node cs' := by
    cases hstc : tree_stack (.node cs)
        ((P.split rng n).map (draw_sample P (.node cs))) with
    | leaf x =>
        rw [hstc] at hshape
        simp [Tree.shape, Tree.map] at hshape
    | node cs2 => exact ⟨cs2, rfl⟩
  have hkeys : cs'.keys = cs.keys := by
    rw [hcs'] at hshape
    simp only [Tree.shape, Tree.map, Tree.node.injEq] at hshape
    rw [← TreeList.map_keys (fun _ => ()) cs', hshape, TreeList.map_keys]
  have hnk' : "model_index" ∉ cs'.keys := by rw [hkeys]; exact hmi
  have hext : extract_multiple_models P (.node cs) rng n
      = .node (cs'.append
          (.cons "model_index" (.leaf (jnp_arange n)) .nil)) := by
    simp only [extract_multiple_models]
    rw [hcs']
    rfl
  have hslice : tree_model_slice
        (tree_stack (.node cs)
          ((P.split rng n).map (draw_sample P (.node cs)))) i
      = ((P.split rng n).map (draw_sample P (.node cs))).getD i
          (.leaf 0) := by
    apply tree_model_slice_stack
    · rw [hdl]; exact hi
    · intro d hd
      obtain ⟨k, _, hk2⟩ := List.mem_map.mp hd
      rw [← hk2]
      exact draw_sample_shape P _ k
  rw [hcs'] at hslice
  simp only [tree_model_slice, Tree.map] at hslice
  constructor
  · rw [hext]
    simp only [tree_model_slice, Tree.map, tree_drop_field]
    rw [TreeList.map_append, TreeList.eraseKey_append,
      TreeList.eraseKey_of_not_mem _ _
        (by rw [TreeList.map_keys]; exact hnk')]
    have hone : (TreeList.map (fun xs => xs.getD i 0)
          (TreeList.cons "model_index"
            (Tree.leaf (jnp_arange n)) .nil)).eraseKey "model_index"
        = .nil := by
      simp [TreeList.map, Tree.map, TreeList.eraseKey]
    rw [hone, TreeList.append_nil, hslice,
      List.getD_map_of_lt (P.split rng n) (draw_sample P (Tree.node cs))
        i 0 (Tree.leaf 0) (by rw [hkl]; exact hi)]
  · rw [hext]
    simp only [tree_get_field]
    rw [TreeList.find?_append _ _ _ hnk']
    simp [TreeList.find?]

/-- Witness for C2: a one-field configuration, two models, model index 1,
with the concrete random model. -/
theorem extract_multiple_models_spec_witness :
    tree_drop_field
        (tree_model_slice
          (extract_multiple_models jaxRandomModel
            (.node (.cons "a" (.leaf (encode_constant 2)) .nil)) 0 2) 1)
        "model_index"
      = draw_sample jaxRandomModel
          (.node (.cons "a" (.leaf (encode_constant 2)) .nil))
          ((jaxRandomModel.split 0 2).getD 1 0)
    ∧ tree_get_field
        (extract_multiple_models jaxRandomModel
          (.node (.cons "a" (.leaf (encode_constant 2)) .nil)) 0 2)
        "model_index"
      = some (.leaf (jnp_arange 2)) :=
  extract_multiple_models_spec jaxRandomModel
    (.cons "a" (.leaf (encode_constant 2)) .nil) 0 2 1
    (by decide) (by simp [TreeList.keys])

theorem List.getD_zipWith_of_lt {α β γ : Type} (f : α → β → γ) :
    ∀ (l1 : List α) (l2 : List β) (i : ℕ) (d1 : α) (d2 : β) (d3 : γ),
      i < l1.length → i < l2.length →
      (List.zipWith f l1 l2).getD i d3 = f (l1.getD i d1) (l2.getD i d2)
  | [], _, i, _, _, _, h1, _ => by simp at h1
  | _ :: _, [], i, _, _, _, _, h2 => by simp at h2
  | a :: l1, b :: l2, 0, d1, d2, d3, _, _ => by simp
  | a :: l1, b :: l2, i + 1, d1, d2, d3, h1, h2 => by
      simp only [List.zipWith_cons_cons, List.getD_cons_succ]
      exact List.getD_zipWith_of_lt f l1 l2 i d1 d2 d3
        (by simpa using h1) (by simpa using h2)

/-- C5: the truth vector has one entry per (object, field) target, in the
order given, each the normalization of the sampled value against the record
at the same path: `(v - min)/(max - min)` for a uniform record,
`(v - mean)/std` for a normal record, `0` for a constant record. -/
theorem extract_truth_values_spec (ap : Tree ℚ)
    (cfg : Tree Encoding) (objs fields : List String)
    (h : objs.length = fields.length) :
    (extract_truth_values ap cfg (objs, fields)).length = objs.length
    ∧ (∀ i, i < objs.length →
        (extract_truth_values ap cfg (objs, fields)).getD i 0
          = normalize_param (param_at ap (objs.getD i "") (fields.getD i ""))
              (encoding_at cfg (objs.getD i "") (fields.getD i "")))
    ∧ (∀ v mn mx : ℚ, normalize_param v (encode_uniform mn mx)
        = (v - mn) / (mx - mn))
    ∧ (∀ v mean std : ℚ, normalize_param v (encode_normal mean std)
        = (v - mean) / std)
    ∧ (∀ v c : ℚ, normalize_param v (encode_constant c) = 0) := by
  refine ⟨?_, ?_, ?_, ?_, ?_⟩
  · rw [extract_truth_values, List.length_zipWith, ← h, min_self]
  · intro i hi
    rw [extract_truth_values,
      List.getD_zipWith_of_lt _ objs fields i "" "" 0 hi (h ▸ hi)]
  · intro v mn mx
    norm_num [normalize_param, encode_uniform]
  · intro v mean std
    norm_num [normalize_param, encode_normal]
  · intro v c
    norm_num [normalize_param, encode_constant]

/-- Witness for C5: a single truth target evaluated concretely on a
one-object, one-field pair of dictionaries. -/
theorem extract_truth_values_spec_witness :
    (extract_truth_values
        (.node (.cons "main_deflector_params"
          (.node (.cons "theta_E" (.leaf 1) .nil)) .nil))
        (.node (.cons "main_deflector_params"
          (.node (.cons "theta_E" (.leaf (encode_uniform 0 2)) .nil)) .nil))
        (["main_deflector_params"], ["theta_E"])).length = 1
    ∧ (extract_truth_values
        (.node (.cons "main_deflector_params"
          (.node (.cons "theta_E" (.leaf 1) .nil)) .nil))
        (.node (.cons "main_deflector_params"
          (.node (.cons "theta_E" (.leaf (encode_uniform 0 2)) .nil)) .nil))
        (["main_deflector_params"], ["theta_E"])).getD 0 0
      = normalize_param
          (param_at
            (.node (.cons "main_deflector_params"
              (.node (.cons "theta_E" (.leaf 1) .nil)) .nil))
            "main_deflector_params" "theta_E")
          (encoding_at
            (.node (.cons "main_deflector_params"
              (.node (.cons "theta_E" (.leaf (encode_uniform 0 2)) .nil))
              .nil))
            "main_deflector_params" "theta_E") := by
  have h := extract_truth_values_spec
    (.node (.cons "main_deflector_params"
      (.node (.cons "theta_E" (.leaf 1) .nil)) .nil))
    (.node (.cons "main_deflector_params"
      (.node (.cons "theta_E" (.leaf (encode_uniform 0 2)) .nil)) .nil))
    ["main_deflector_params"] ["theta_E"] rfl
  exact ⟨h.1, h.2.1 0 (by decide)⟩

theorem jnp_var_replicate (n : ℕ) (c : ℚ) :
    jnp_var (List.replicate (n + 1) c) = 0 := by
  have hm : jnp_mean (List.replicate (n + 1) c) = c := by
    have hne : ((n + 1 : ℕ) : ℚ) ≠ 0 := by exact_mod_cast Nat.succ_ne_zero n
    rw [jnp_mean, List.sum_replicate, List.length_replicate, nsmul_eq_mul,
      mul_comm, mul_div_assoc, div_self hne, mul_one]
  rw [jnp_var, hm, List.map_replicate]
  simp

theorem jnp_std_replicate (S : JnpSqrt) (n : ℕ) (c : ℚ) :
    jnp_std S (List.replicate (n + 1) c) = 0 := by
  rw [jnp_std, jnp_var_replicate, S.sqrt_zero]

/-- C7: there is no zero-variance guard in the scene assembler's
standard-deviation normalization.  A uniformly constant downsampled image
has variance 0 and empirical standard deviation 0, and the code divides
every pixel by that 0 unconditionally (a non-finite float in the real
code; division by zero in this embedding) — and `draw_image_and_truth`
returns the divided-through image silently whenever the rendering pipeline
produces a constant image. -/
theorem image_std_normalization_no_guard :
    (∀ (S : JnpSqrt) (n : ℕ) (c : ℚ),
      jnp_var (List.replicate (n + 1) c) = 0
      ∧ jnp_std S (List.replicate (n + 1) c) = 0
      ∧ rescale_to_unit_std S (List.replicate (n + 1) c)
          = (List.replicate (n + 1) c).map (fun p => p / 0))
    ∧ (∀ S : JnpSqrt,
      (draw_image_and_truth constImageCollaborators S jaxRandomModel
          (.node .nil) () () () 0 ⟨[], [], []⟩ 0 0 ⟨1, 1, 1, 1⟩ ⟨2, ()⟩ ()
          ([], [])).1
        = (List.replicate 4 3).map (fun p => p / 0)) := by
  constructor
  · intro S n c
    refine ⟨jnp_var_replicate n c, jnp_std_replicate S n c, ?_⟩
    rw [rescale_to_unit_std, jnp_std_replicate S n c]
  · intro S
    show rescale_to_unit_std S (List.replicate 4 3) = _
    rw [rescale_to_unit_std, show (4 : ℕ) = 3 + 1 from rfl,
      jnp_std_replicate S 3 3]

/-- C10: the lens-light candidate parameter sets are drawn with model
count `len(all_models["all_source_models"])` — the source catalog's
length, not the lens-light catalog's — and the principal lens-light
parameter set is selected with `principal_source_index`, the same index
that selects the principal source: the truth component of
`draw_image_and_truth`, for every collaborator instance, is the truth
extraction applied to exactly these parameter sets. -/
theorem lens_light_uses_source_catalog
    (G Cos PSF D M Img ZA KW SZ SK : Type)
    (E : SceneCollaborators G Cos PSF D M Img ZA KW SZ SK) (S : JnpSqrt)
    (P : JaxRandom) (lensing_config : Tree Encoding) (cos : Cos)
    (gx gy : G) (rng : Key) (models : AllModels M) (pmd psi : ℕ)
    (sim : KwargsSimulation) (det : KwargsDetector D) (psf : PSF)
    (tp : List String × List String) :
    (draw_image_and_truth E S P lensing_config cos gx gy rng models
        pmd psi sim det psf tp).2
      = extract_truth_values
          (.node (.cons "source_params"
              (tree_model_slice
                (extract_multiple_models P
                  (dict_get lensing_config "source_params")
                  ((P.split rng 6).getD 1 0)
                  models.all_source_models.length) psi)
            (.cons "lens_light_params"
              (tree_model_slice
                (extract_multiple_models P
                  (dict_get lensing_config "lens_light_params")
                  ((P.split rng 6).getD 2 0)
                  models.all_source_models.length) psi)
            (.cons "los_params"
              (draw_sample P (dict_get lensing_config "los_params")
                ((P.split rng 6).getD 3 0))
            (.cons "subhalo_params"
              (draw_sample P (dict_get lensing_config "subhalo_params")
                ((P.split rng 6).getD 4 0))
            (.cons "main_deflector_params"
              (tree_model_slice
                (extract_multiple_models P
                  (dict_get lensing_config "main_deflector_params")
                  ((P.split rng 6).getD 0 0)
                  models.all_main_deflector_models.length) pmd)
            .nil))))))
          lensing_config tp :=
  rfl

/-- C8: for every collaborator instance, the two coarse-pass
Lagrangian-radius queries are made at exactly `m_min / 10` and
`m_max * 10`, where `m_min` / `m_max` are the decoded minimum / maximum
over the declared subhalo and line-of-sight mass distributions (the full
data-flow of the initializer, universally quantified over the opaque
collaborators); and on the concrete `[1e7, 1e10]` configuration the
recorded refined radius bounds are the masses `1e6` and `1e11`. -/
theorem intialize_cosmology_params_radius_queries :
    (∀ (C R : Type) (U : CosmologyUtils C R) (P : JaxRandom)
        (config : InputConfig) (rng : Key),
      intialize_cosmology_params U P config rng
        = U.add_los_lookup_tables_to_cosmology_params
            ⟨min (decode_minimum
                  (config.lensing_config "subhalo_params" "m_min"))
                (decode_minimum (config.lensing_config "los_params" "m_min")),
              max (decode_maximum
                  (config.lensing_config "subhalo_params" "m_max"))
                (decode_maximum (config.lensing_config "los_params" "m_max")),
              decode_minimum (config.lensing_config "los_params" "dz")⟩
            (U.add_lookup_tables_to_cosmology_params
              (draw_sample P config.cosmology_params rng) (3/2)
              (decode_minimum (config.lensing_config "los_params" "dz") / 2)
              (U.lagrangian_radius
                (U.add_lookup_tables_to_cosmology_params
                  (draw_sample P config.cosmology_params rng)
                  (decode_maximum
                    (config.lensing_config "source_params" "z_source"))
                  (decode_minimum (config.lensing_config "los_params" "dz")
                    / 2)
                  (1/10000) 1000 2)
                (min (decode_minimum
                    (config.lensing_config "subhalo_params" "m_min"))
                  (decode_minimum
                    (config.lensing_config "los_params" "m_min")) / 10))
              (U.lagrangian_radius
                (U.add_lookup_tables_to_cosmology_params
                  (draw_sample P config.cosmology_params rng)
                  (decode_maximum
                    (config.lensing_config "source_params" "z_source"))
                  (decode_minimum (config.lensing_config "los_params" "dz")
                    / 2)
                  (1/10000) 1000 2)
                (max (decode_maximum
                    (config.lensing_config "subhalo_params" "m_max"))
                  (decode_maximum
                    (config.lensing_config "los_params" "m_max")) * 10))
              10000)
            (decode_maximum
              (config.lensing_config "source_params" "z_source")))
    ∧ (intialize_cosmology_params (tableRecorder (fun _ m => m))
        jaxRandomModel cfgExample 0).2.2.1 = 1000000
    ∧ (intialize_cosmology_params (tableRecorder (fun _ m => m))
        jaxRandomModel cfgExample 0).2.2.2.1 = 100000000000 := by
  refine ⟨fun C R U P config rng => rfl, ?_, ?_⟩ <;>
  · simp only [intialize_cosmology_params, tableRecorder, cfgExample,
      decode_minimum, decode_maximum, encode_constant]
    simp
    try norm_num

/-- The counterexample to C9 as stated: on the concrete configuration the
declared line-of-sight redshift step is `1/100`, but the final (refined)
lookup table is built with step `1/200`, not the declared step. -/
theorem refined_step_not_declared :
    decode_minimum (cfgExample.lensing_config "los_params" "dz") = 1/100
    ∧ (intialize_cosmology_params (tableRecorder (fun _ m => m))
        jaxRandomModel cfgExample 0).2.1 = 1/200
    ∧ ((1 : ℚ)/200) ≠ 1/100 := by
  refine ⟨?_, ?_, by norm_num⟩ <;>
  · simp only [intialize_cosmology_params, tableRecorder, cfgExample,
      decode_minimum, decode_maximum, encode_constant]
    simp
    try norm_num

/-- C9 (amended): the final lookup table is built spanning redshift
`[0, 1.5]` at HALF the declared line-of-sight redshift step (the same step
the coarse pass uses), with 10000 sample points; the coarse pass uses the
maximum declared source redshift as span, half the declared step, and 2
points.  Observed through admissible recorder collaborators: the first
three components record the refined build, and routing a coarse-table
component through the Lagrangian-radius estimator exposes each coarse
build argument in the refined `r_min` slot. -/
theorem intialize_cosmology_params_refined_table (P : JaxRandom)
    (config : InputConfig) (rng : Key) :
    (intialize_cosmology_params (tableRecorder (fun _ m => m))
        P config rng).1 = 3/2
    ∧ (intialize_cosmology_params (tableRecorder (fun _ m => m))
        P config rng).2.1
      = decode_minimum (config.lensing_config "los_params" "dz") / 2
    ∧ (intialize_cosmology_params (tableRecorder (fun _ m => m))
        P config rng).2.2.2.2 = 10000
    ∧ (intialize_cosmology_params (tableRecorder (fun c _ => c.2.1))
        P config rng).2.2.1
      = decode_minimum (config.lensing_config "los_params" "dz") / 2
    ∧ (intialize_cosmology_params
        (tableRecorder (fun c _ => (c.2.2.2.2 : ℚ))) P config rng).2.2.1
      = 2
    ∧ (intialize_cosmology_params (tableRecorder (fun c _ => c.1))
        P config rng).2.2.1
      = decode_maximum (config.lensing_config "source_params" "z_source") :=
  ⟨rfl, rfl, rfl, rfl, rfl, rfl⟩

end Paltax
